import Mathlib

/-!
Shallow embedding of the Plonky3 Fibonacci example (`src/main.rs`):
the `FibonacciAir` constraint specification and the
`generate_fibonacci_trace` trace generator, together with the
row-selector semantics of the constraint builder.

The Rust code is generic over `F: Field`; of that trait it only uses the
additive structure (`ZERO`, `ONE`, `+`) and `from_u32` (injection of a
small unsigned integer, modelled as `Nat.cast`).  We therefore state the
development over an arbitrary commutative ring, which subsumes every
field.  The Rust `u32` parameter `final_value` is modelled as `Nat`.
-/

/-- The row selectors the constraint builder exposes:
`when_first_row`, `when_last_row`, `when_transition`. -/
inductive Selector : Type where
  | firstRow : Selector
  | lastRow : Selector
  | transition : Selector
deriving DecidableEq, Repr

/-- Selector semantics on a trace of the given height (the uni-stark
row-selector model): `is_first_row` holds at row 0, `is_last_row` at row
`height - 1`, and `is_transition` at every row except the last. -/
def Selector.applies (s : Selector) (i height : Nat) : Bool :=
  match s with
  | .firstRow => i == 0
  | .lastRow => i == height - 1
  | .transition => i != height - 1

/-- One recorded assertion `when(sel).assert_eq(lhs, rhs)`: the claim
that `lhs = rhs` on every row where `sel` applies. -/
structure Assertion (F : Type) where
  sel : Selector
  lhs : F
  rhs : F
deriving DecidableEq, Repr

/-- `RowMajorMatrix<F>`: a flat row-major buffer of values together with
the number of columns per row. -/
structure RowMajorMatrix (F : Type) where
  values : List F
  width : Nat
deriving DecidableEq, Repr

/-- `height = len / width`. -/
def RowMajorMatrix.height {F : Type} (m : RowMajorMatrix F) : Nat :=
  m.values.length / m.width

/-- Row `i` is the sub-sequence `[i*width, (i+1)*width)` of the buffer. -/
def RowMajorMatrix.row {F : Type} (m : RowMajorMatrix F) (i : Nat) : List F :=
  (m.values.drop (i * m.width)).take m.width

/-- Entry `(i, j)`: element `j` of row `i` (Rust `trace.row_slice(i)[j]`).
Out-of-range access is totalised with the ring's zero; all theorems use
it only at in-range indices. -/
def RowMajorMatrix.entry {F : Type} [CommRing F] (m : RowMajorMatrix F) (i j : Nat) : F :=
  (m.row i).getD j 0

/-- `row_slice(offset)` on the builder's two-row window (a list of rows):
`Some` row at an in-range offset, `None` (the Rust error/panic branch)
past the end of the window. -/
def row_slice {F : Type} (w : List (List F)) (off : Nat) : Option (List F) :=
  w[off]?

/-- The two-row window the builder binds to row `i` of a trace: the
local row `i` and the next row `(i+1) % height` (cyclic, as in the
uni-stark evaluation domain). -/
def windowAt {F : Type} (m : RowMajorMatrix F) (i : Nat) : List (List F) :=
  [m.row i, m.row ((i + 1) % m.height)]

/-- `FibonacciAir { num_steps, final_value }`. -/
structure FibonacciAir : Type where
  num_steps : Nat
  final_value : Nat
deriving DecidableEq, Repr

/-- `BaseAir::width for FibonacciAir`: always 2. -/
def FibonacciAir.width (F : Type) [CommRing F] (_air : FibonacciAir) : Nat :=
  2

/-- `FibonacciAir::eval`: reads `local = main.row_slice(0)` and
`next = main.row_slice(1)` (each `unwrap` modelled as the `Option`
success branch), then records the five assertions in source order:
two first-row boundary assertions, two transition assertions, and the
final-value assertion.  `from_u32(self.final_value)` is `Nat.cast`. -/
def FibonacciAir.eval (F : Type) [CommRing F] (air : FibonacciAir)
    (main : List (List F)) : Option (List (Assertion F)) :=
  match row_slice main 0, row_slice main 1 with
  | some lo, some nx =>
      some
        [ { sel := .firstRow, lhs := lo.getD 0 0, rhs := 0 },
          { sel := .firstRow, lhs := lo.getD 1 0, rhs := 1 },
          { sel := .transition, lhs := nx.getD 0 0, rhs := lo.getD 1 0 },
          { sel := .transition, lhs := nx.getD 1 0, rhs := lo.getD 0 0 + lo.getD 1 0 },
          { sel := .lastRow, lhs := lo.getD 1 0, rhs := (air.final_value : F) } ]
  | _, _ => none

/-- The loop body of `generate_fibonacci_trace`: starting from the pair
`(a, b)`, push `a` and `b`, then continue with `(b, a + b)`, for
`num_steps` iterations. -/
def traceLoop (F : Type) [CommRing F] : Nat → F → F → List F
  | 0, _, _ => []
  | n + 1, a, b => a :: b :: traceLoop F n b (a + b)

/-- `generate_fibonacci_trace::<F>(num_steps)`: run the loop from
`(ZERO, ONE)` and wrap the buffer as a width-2 row-major matrix. -/
def generate_fibonacci_trace (F : Type) [CommRing F] (num_steps : Nat) : RowMajorMatrix F :=
  { values := traceLoop F num_steps 0 1, width := 2 }

/-- Satisfaction of the AIR by a trace: every assertion `eval` emits on
the window at row `i` holds at every row `i < height` where its
selector applies. -/
def constraintsSatisfied (F : Type) [CommRing F] (air : FibonacciAir)
    (m : RowMajorMatrix F) : Prop :=
  ∀ i, i < m.height →
    ∀ a ∈ (FibonacciAir.eval F air (windowAt m i)).getD [],
      a.sel.applies i m.height = true → a.lhs = a.rhs

instance (F : Type) [CommRing F] [DecidableEq F] (air : FibonacciAir)
    (m : RowMajorMatrix F) : Decidable (constraintsSatisfied F air m) := by
  unfold constraintsSatisfied
  infer_instance

/-- The Mersenne31 prime field `𝔽_(2^31 - 1)` used by `main`. -/
abbrev Mersenne31 : Type := ZMod 2147483647

/-- The state of the Fibonacci pair `(a, b)` after `n` loop iterations
starting from `(a, b)` — the closed form of the generator's loop state. -/
def fibPair (F : Type) [CommRing F] : F → F → Nat → F × F
  | a, b, 0 => (a, b)
  | a, b, n + 1 => fibPair F b (a + b) n

lemma traceLoop_length (F : Type) [CommRing F] (n : Nat) :
    ∀ a b : F, (traceLoop F n a b).length = 2 * n := by
  induction n with
  | zero => intro a b; rfl
  | succ n ih =>
      intro a b
      simp only [traceLoop, List.length_cons, ih]
      omega

lemma fibPair_succ (F : Type) [CommRing F] (i : Nat) :
    ∀ a b : F, fibPair F a b (i + 1) =
      ((fibPair F a b i).2, (fibPair F a b i).1 + (fibPair F a b i).2) := by
  induction i with
  | zero => intro a b; rfl
  | succ i ih =>
      intro a b
      show fibPair F b (a + b) (i + 1) = _
      rw [ih]
      rfl

lemma fibPair_fib (F : Type) [CommRing F] (n : Nat) :
    fibPair F 0 1 n = ((Nat.fib n : F), (Nat.fib (n + 1) : F)) := by
  induction n with
  | zero => simp [fibPair]
  | succ n ih =>
      rw [fibPair_succ, ih]
      have h2 : Nat.fib (n + 1 + 1) = Nat.fib n + Nat.fib (n + 1) := Nat.fib_add_two
      simp only [Prod.mk.injEq, true_and]
      rw [h2]
      push_cast
      ring

lemma traceLoop_drop (F : Type) [CommRing F] (i : Nat) :
    ∀ (n : Nat) (a b : F), i ≤ n →
      (traceLoop F n a b).drop (2 * i) =
        traceLoop F (n - i) (fibPair F a b i).1 (fibPair F a b i).2 := by
  induction i with
  | zero =>
      intro n a b _
      simp [fibPair]
  | succ i ih =>
      intro n a b h
      cases n with
      | zero => exact absurd h (by omega)
      | succ n =>
        have h' : i ≤ n := by omega
        have e2 : 2 * (i + 1) = 2 * i + 1 + 1 := by ring
        rw [e2]
        show (a :: b :: traceLoop F n b (a + b)).drop (2 * i + 1 + 1) = _
        rw [List.drop_succ_cons, List.drop_succ_cons, Nat.succ_sub_succ]
        exact ih n b (a + b) h'

lemma generate_height (F : Type) [CommRing F] (n : Nat) :
    (generate_fibonacci_trace F n).height = n := by
  simp only [generate_fibonacci_trace, RowMajorMatrix.height, traceLoop_length]
  omega

lemma generate_row (F : Type) [CommRing F] (n i : Nat) (h : i < n) :
    (generate_fibonacci_trace F n).row i =
      [(Nat.fib i : F), (Nat.fib (i + 1) : F)] := by
  show ((traceLoop F n 0 1).drop (i * 2)).take 2 = _
  rw [show i * 2 = 2 * i from by ring, traceLoop_drop F i n 0 1 (le_of_lt h)]
  obtain ⟨k, hk⟩ : ∃ k, n - i = k + 1 := ⟨n - i - 1, by omega⟩
  rw [hk, fibPair_fib]
  rfl

lemma generate_entry (F : Type) [CommRing F] (n i : Nat) (h : i < n) :
    (generate_fibonacci_trace F n).entry i 0 = (Nat.fib i : F) ∧
    (generate_fibonacci_trace F n).entry i 1 = (Nat.fib (i + 1) : F) := by
  unfold RowMajorMatrix.entry
  rw [generate_row F n i h]
  exact ⟨rfl, rfl⟩

lemma generate_satisfies (F : Type) [CommRing F] (n fv : Nat)
    (hfv : (fv : F) = (Nat.fib n : F)) :
    constraintsSatisfied F ⟨n, fv⟩ (generate_fibonacci_trace F n) := by
  intro i hi a ha hsel
  rw [generate_height] at hi
  simp only [windowAt, generate_height, FibonacciAir.eval, row_slice,
    List.getElem?_cons_zero, List.getElem?_cons_succ, Option.getD_some,
    List.mem_cons, List.not_mem_nil, or_false] at ha
  rw [generate_height] at hsel
  rcases ha with rfl | rfl | rfl | rfl | rfl
  · -- first-row assertion on column 0
    simp only [Selector.applies, beq_iff_eq] at hsel
    subst hsel
    rw [generate_row F n 0 hi]
    simp
  · -- first-row assertion on column 1
    simp only [Selector.applies, beq_iff_eq] at hsel
    subst hsel
    rw [generate_row F n 0 hi]
    simp
  · -- transition assertion on column 0
    simp only [Selector.applies, bne_iff_ne, ne_eq] at hsel
    have hi1 : i + 1 < n := by omega
    rw [Nat.mod_eq_of_lt hi1, generate_row F n (i + 1) hi1, generate_row F n i hi]
    rfl
  · -- transition assertion on column 1
    simp only [Selector.applies, bne_iff_ne, ne_eq] at hsel
    have hi1 : i + 1 < n := by omega
    rw [Nat.mod_eq_of_lt hi1, generate_row F n (i + 1) hi1, generate_row F n i hi]
    show (Nat.fib (i + 1 + 1) : F) = (Nat.fib i : F) + (Nat.fib (i + 1) : F)
    rw [Nat.fib_add_two]
    push_cast
    ring
  · -- last-row assertion
    simp only [Selector.applies, beq_iff_eq] at hsel
    subst hsel
    rw [generate_row F n (n - 1) (by omega)]
    show (Nat.fib (n - 1 + 1) : F) = (fv : F)
    rw [show n - 1 + 1 = n from by omega, hfv]

/-- C1 (counterexample): the claim quantifies over *every* `final_value`,
but with `num_steps = 1` and `final_value = 0` over Mersenne31 the
last-row assertion `local[1] = from_u32(0)` fails on the generated trace
(row 0 is `(0, 1)` and `1 ≠ 0`). -/
theorem constraints_fail_for_mismatched_final_value :
    ¬ constraintsSatisfied Mersenne31 ⟨1, 0⟩ (generate_fibonacci_trace Mersenne31 1) := by
  decide

/-- C1 (amended): whenever `from_u32 final_value` agrees with the `n`-th
Fibonacci number in the field, every assertion `FibonacciAir.eval` emits
holds on every row its selector applies to for the generated trace, and
`eval` itself succeeds (returns `some`) on every row window. -/
theorem generate_trace_satisfies_all_assertions (F : Type) [CommRing F] (n fv : Nat)
    (hfv : (fv : F) = (Nat.fib n : F)) :
    constraintsSatisfied F ⟨n, fv⟩ (generate_fibonacci_trace F n) ∧
    ∀ i, i < (generate_fibonacci_trace F n).height →
      (FibonacciAir.eval F ⟨n, fv⟩ (windowAt (generate_fibonacci_trace F n) i)).isSome = true := by
  exact ⟨generate_satisfies F n fv hfv, fun i _ => rfl⟩

/-- C1 (witness): the shipped parameters `num_steps = 8`,
`final_value = 21` over Mersenne31 satisfy the hypothesis, so the
generated trace satisfies every emitted assertion. -/
theorem generate_trace_satisfies_all_assertions_witness :
    constraintsSatisfied Mersenne31 ⟨8, 21⟩ (generate_fibonacci_trace Mersenne31 8) ∧
    ∀ i, i < (generate_fibonacci_trace Mersenne31 8).height →
      (FibonacciAir.eval Mersenne31 ⟨8, 21⟩ (windowAt (generate_fibonacci_trace Mersenne31 8) i)).isSome = true :=
  generate_trace_satisfies_all_assertions Mersenne31 8 21 (by decide)

/-- C2: for `num_steps ≥ 2` the generated trace satisfies the transition
relation on every adjacent row pair: `trace[i+1][0] = trace[i][1]` and
`trace[i+1][1] = trace[i][0] + trace[i][1]` for all `i ≤ num_steps - 2`. -/
theorem generate_trace_transition_rows (F : Type) [CommRing F] (n : Nat)
    (h2 : 2 ≤ n) (i : Nat) (hi : i ≤ n - 2) :
    (generate_fibonacci_trace F n).entry (i + 1) 0 = (generate_fibonacci_trace F n).entry i 1 ∧
    (generate_fibonacci_trace F n).entry (i + 1) 1 =
      (generate_fibonacci_trace F n).entry i 0 + (generate_fibonacci_trace F n).entry i 1 := by
  have hi1 : i + 1 < n := by omega
  have hi0 : i < n := by omega
  obtain ⟨e10, e11⟩ := generate_entry F n (i + 1) hi1
  obtain ⟨e00, e01⟩ := generate_entry F n i hi0
  rw [e10, e11, e00, e01]
  refine ⟨rfl, ?_⟩
  rw [Nat.fib_add_two]
  push_cast
  ring

/-- C2 (witness): the transition relation at `n = 8`, `i = 3` over
Mersenne31. -/
theorem generate_trace_transition_rows_witness :
    (generate_fibonacci_trace Mersenne31 8).entry 4 0 = (generate_fibonacci_trace Mersenne31 8).entry 3 1 ∧
    (generate_fibonacci_trace Mersenne31 8).entry 4 1 =
      (generate_fibonacci_trace Mersenne31 8).entry 3 0 + (generate_fibonacci_trace Mersenne31 8).entry 3 1 :=
  generate_trace_transition_rows Mersenne31 8 (by decide) 3 (by decide)

/-- C3: for `num_steps ≥ 1`, row 0 of the generated trace is exactly
`[ZERO, ONE]` — the first-row constants the AIR asserts. -/
theorem generate_trace_first_row (F : Type) [CommRing F] (n : Nat) (h : 1 ≤ n) :
    (generate_fibonacci_trace F n).row 0 = [(0 : F), 1] := by
  rw [generate_row F n 0 (by omega)]
  simp

/-- C3 (witness): row 0 at `n = 8` over Mersenne31. -/
theorem generate_trace_first_row_witness :
    (generate_fibonacci_trace Mersenne31 8).row 0 = [(0 : Mersenne31), 1] :=
  generate_trace_first_row Mersenne31 8 (by decide)

/-- C4 (counterexample): the claim quantifies over *every* `final_value`,
but with `num_steps = 1` and `final_value = 0` over Mersenne31 the last
row's column 1 is `1`, not `from_u32(0) = 0`. -/
theorem last_row_ne_from_u32_final_value :
    ¬ ((generate_fibonacci_trace Mersenne31 1).entry (1 - 1) 1 = ((0 : Nat) : Mersenne31)) := by
  decide

/-- C4 (amended): for `num_steps ≥ 1`, the last row's column 1 equals
the `num_steps`-th Fibonacci number in the field; hence it equals
`from_u32 final_value` exactly when `from_u32 final_value` agrees with
that Fibonacci number (as the shipped parameters 8 / 21 do). -/
theorem generate_trace_last_row_value (F : Type) [CommRing F] (n fv : Nat)
    (h : 1 ≤ n) (hfv : (fv : F) = (Nat.fib n : F)) :
    (generate_fibonacci_trace F n).entry (n - 1) 1 = (fv : F) := by
  obtain ⟨_, e1⟩ := generate_entry F n (n - 1) (by omega)
  rw [e1, show n - 1 + 1 = n from by omega, hfv]

/-- C4 (witness): at `n = 8`, `final_value = 21` over Mersenne31 the
hypothesis holds and the last row's column 1 is `from_u32 21`. -/
theorem generate_trace_last_row_value_witness :
    (generate_fibonacci_trace Mersenne31 8).entry (8 - 1) 1 = ((21 : Nat) : Mersenne31) :=
  generate_trace_last_row_value Mersenne31 8 21 (by decide) (by decide)

/-- C5: `width()` is 2 for every field and every `FibonacciAir` value,
the generated trace has exactly that width, and its height equals
`num_steps`. -/
theorem fibonacci_air_width_and_trace_dims (F : Type) [CommRing F]
    (air : FibonacciAir) (n : Nat) :
    FibonacciAir.width F air = 2 ∧
    (generate_fibonacci_trace F n).width = FibonacciAir.width F air ∧
    (generate_fibonacci_trace F n).height = n :=
  ⟨rfl, rfl, generate_height F n⟩

/-- C6: every trace entry is the corresponding Fibonacci number computed
in the field's arithmetic: row `i` is `(Fib i, Fib (i+1))` reduced into
`F` via `Nat.cast`, so all values wrap by the field's characteristic and
no machine-integer arithmetic is involved. -/
theorem generate_trace_entries_are_field_fib (F : Type) [CommRing F] (n i : Nat)
    (h : i < n) :
    (generate_fibonacci_trace F n).entry i 0 = (Nat.fib i : F) ∧
    (generate_fibonacci_trace F n).entry i 1 = (Nat.fib (i + 1) : F) :=
  generate_entry F n i h

/-- C6 (witness): row 5 of the 8-step Mersenne31 trace is
`(Fib 5, Fib 6) = (5, 8)`. -/
theorem generate_trace_entries_are_field_fib_witness :
    (generate_fibonacci_trace Mersenne31 8).entry 5 0 = (Nat.fib 5 : Mersenne31) ∧
    (generate_fibonacci_trace Mersenne31 8).entry 5 1 = (Nat.fib 6 : Mersenne31) :=
  generate_trace_entries_are_field_fib Mersenne31 8 5 (by decide)

/-- C7 (counterexample): `generate_fibonacci_trace` is a total function
with no error channel; at `num_steps = 0` it silently succeeds and
returns the empty height-0 trace rather than indicating a structurally
invalid parameter. -/
theorem generate_trace_zero_steps_silently_succeeds :
    generate_fibonacci_trace Mersenne31 0 = { values := [], width := 2 } := by
  rfl

/-- C7 (amended): trace generation is deterministic and total for every
`num_steps`, including 0: it always returns a trace of height
`num_steps`, and at `num_steps = 0` it returns the empty trace, on which
every AIR's constraints hold vacuously — no invalidity is signalled. -/
theorem generate_trace_total_no_error (F : Type) [CommRing F] (air : FibonacciAir)
    (n : Nat) :
    (generate_fibonacci_trace F n).height = n ∧
    (generate_fibonacci_trace F 0).values = [] ∧
    constraintsSatisfied F air (generate_fibonacci_trace F 0) := by
  refine ⟨generate_height F n, rfl, ?_⟩
  intro i hi
  rw [generate_height] at hi
  exact absurd hi (Nat.not_lt_zero i)

/-- C8: on a builder window holding at least 2 rows, `row_slice 0` and
`row_slice 1` succeed and the two `unwrap`s inside `eval` never hit the
error branch; a relative offset at or past the window's length fails
with the out-of-range (`none`) result. -/
theorem row_slice_window_bounds (F : Type) [CommRing F] (air : FibonacciAir)
    (w : List (List F)) :
    (2 ≤ w.length →
      (row_slice w 0).isSome = true ∧ (row_slice w 1).isSome = true ∧
      (FibonacciAir.eval F air w).isSome = true) ∧
    (∀ off, w.length ≤ off → row_slice w off = none) := by
  constructor
  · intro h2
    have h0 : 0 < w.length := by omega
    have h1 : 1 < w.length := by omega
    refine ⟨?_, ?_, ?_⟩
    · simp [row_slice, List.getElem?_eq_getElem h0]
    · simp [row_slice, List.getElem?_eq_getElem h1]
    · simp [FibonacciAir.eval, row_slice, List.getElem?_eq_getElem h0,
        List.getElem?_eq_getElem h1]
  · intro off hoff
    simp [row_slice, List.getElem?_eq_none hoff]

/-- C8 (witness): on the concrete 2-row window `[[0,1],[1,1]]` over
Mersenne31, offsets 0 and 1 succeed, `eval` succeeds, and offset 5 is
out of range. -/
theorem row_slice_window_bounds_witness :
    ((row_slice ([[0, 1], [1, 1]] : List (List Mersenne31)) 0).isSome = true ∧
     (row_slice ([[0, 1], [1, 1]] : List (List Mersenne31)) 1).isSome = true ∧
     (FibonacciAir.eval Mersenne31 ⟨8, 21⟩ [[0, 1], [1, 1]]).isSome = true) ∧
    row_slice ([[0, 1], [1, 1]] : List (List Mersenne31)) 5 = none :=
  ⟨(row_slice_window_bounds Mersenne31 ⟨8, 21⟩ [[0, 1], [1, 1]]).1 (by decide),
   (row_slice_window_bounds Mersenne31 ⟨8, 21⟩ [[0, 1], [1, 1]]).2 5 (by decide)⟩

/-- C9: with `num_steps = 8` over Mersenne31 the generated trace is
exactly the eight rows `(0,1),(1,1),(1,2),(2,3),(3,5),(5,8),(8,13),(13,21)`,
and row 7, column 1 equals 21. -/
theorem concrete_trace_eight_steps :
    (generate_fibonacci_trace Mersenne31 8).values =
      ([0, 1, 1, 1, 1, 2, 2, 3, 3, 5, 5, 8, 8, 13, 13, 21] : List Mersenne31) ∧
    (generate_fibonacci_trace Mersenne31 8).height = 8 ∧
    (List.range 8).map (fun i => (generate_fibonacci_trace Mersenne31 8).row i) =
      ([[0, 1], [1, 1], [1, 2], [2, 3], [3, 5], [5, 8], [8, 13], [13, 21]] : List (List Mersenne31)) ∧
    (generate_fibonacci_trace Mersenne31 8).entry 7 1 = ((21 : Nat) : Mersenne31) := by
  decide

/-- C10: the constraints are independent of `num_steps`: two
`FibonacciAir` values with the same `final_value` have the same `width`
and emit identical assertions on every row window. -/
theorem eval_independent_of_num_steps (F : Type) [CommRing F]
    (a a' : FibonacciAir) (h : a.final_value = a'.final_value) :
    FibonacciAir.width F a = FibonacciAir.width F a' ∧
    ∀ w : List (List F), FibonacciAir.eval F a w = FibonacciAir.eval F a' w := by
  obtain ⟨ns, fv⟩ := a
  obtain ⟨ns', fv'⟩ := a'
  simp only at h
  subst h
  exact ⟨rfl, fun w => rfl⟩

/-- C10 (witness): `FibonacciAir` values with `num_steps` 3 and 8 but
the same `final_value` 21 agree in width and in the assertions emitted
on a concrete window. -/
theorem eval_independent_of_num_steps_witness :
    FibonacciAir.width Mersenne31 ⟨3, 21⟩ = FibonacciAir.width Mersenne31 ⟨8, 21⟩ ∧
    FibonacciAir.eval Mersenne31 ⟨3, 21⟩ [[0, 1], [1, 1]] =
      FibonacciAir.eval Mersenne31 ⟨8, 21⟩ [[0, 1], [1, 1]] :=
  ⟨(eval_independent_of_num_steps Mersenne31 ⟨3, 21⟩ ⟨8, 21⟩ rfl).1,
   (eval_independent_of_num_steps Mersenne31 ⟨3, 21⟩ ⟨8, 21⟩ rfl).2 [[0, 1], [1, 1]]⟩
